import Mathlib

/-!
# Verification of the vulkan-rt device/swapchain lifecycle core

Shallow embedding of the device-selection and swapchain-lifecycle code of the
`vulkan-rt` repository, together with proofs of the specified properties.

Embedded source files:
* `src/lib/common/include/common/util/error.hpp` — the `Error` cause-chain type
  (`Error::from<vk::Result>` behaviour is pinned by `src/lib/common/test/error.cpp`);
* `src/vulkan/context/src/swapchain.cpp` and its header — `SwapchainContext`:
  the `Empty → Live → Invalidated → Live` state machine with `acquire_next`,
  `present` and `check_and_recreate_swapchain`;
* `src/vulkan/context/src/impl/device.cpp` — physical-device selection
  (`check_device`, `score_phy_device`, `pick_physical_device`) and queue-family
  resolution (`find_queue_family_index`, queue-detection part of
  `create_logical_device`, which is identical to `test_device_queue_families`
  in `src/vulkan/context/src/device.cpp`);
* `src/vulkan/util/include/vulkan/util/cycle.hpp` — the frame-resource `Cycle`.

Backend (driver) behaviour — surface capabilities, results of
`vkCreateSwapchainKHR` / `vkAcquireNextImageKHR` / `vkQueuePresentKHR` /
`vkCreateImageView` — is an explicit oracle parameter.  The unbounded C++
`while (true)` loop of `acquire_next` is driven by a finite list of per-iteration
backend responses; running out of the list models a loop that is still spinning.
Calls the specification quantifies over (swapchain creation, the native acquire,
the present submission) are recorded in an event log.
-/

set_option autoImplicit false

namespace VulkanRT

/-! ## Vulkan result codes (the constructors the embedded code distinguishes) -/

/-- The subset of `vk::Result` values relevant to the embedded code.  `eSuccess`,
`eErrorOutOfDateKHR` and `eSuboptimalKHR` are matched explicitly by the source;
the others are representatives of the `default:` (hard-failure) branch. -/
inductive VkResult where
  | eSuccess
  | eNotReady
  | eTimeout
  | eSuboptimalKHR
  | eErrorOutOfDateKHR
  | eErrorDeviceLost
  | eErrorSurfaceLostKHR
deriving DecidableEq, Repr

/-- `vk::to_string` on the modelled result codes (names as produced by vulkan_to_string.hpp). -/
def vkResultToString : VkResult → String
  | .eSuccess => "Success"
  | .eNotReady => "NotReady"
  | .eTimeout => "Timeout"
  | .eSuboptimalKHR => "SuboptimalKHR"
  | .eErrorOutOfDateKHR => "ErrorOutOfDateKHR"
  | .eErrorDeviceLost => "ErrorDeviceLost"
  | .eErrorSurfaceLostKHR => "ErrorSurfaceLostKHR"

/-! ## The `Error` type (common/util/error.hpp)

`Error` holds a `message`, an optional `detail` and a `cause` pointer forming a
chain (`std::source_location` carries no program-visible semantics and is not
modelled).  `base` is the public two-constructor family (null cause), `chained`
the result of `forward`. -/

inductive Err where
  | base (message : String) (detail : Option String)
  | chained (message : String) (detail : Option String) (cause : Err)
deriving DecidableEq, Repr

/-- `Error::forward(message)`: a new error with the given context message whose
cause is the original error. -/
def Err.forward (e : Err) (message : String) : Err :=
  .chained message none e

/-- `Error::from<vk::Result>(r)`: message "Vulkan operation failed", detail
`vk::to_string(r)`, no cause (behaviour asserted by `src/lib/common/test/error.cpp`). -/
def Err.fromResult (r : VkResult) : Err :=
  .base "Vulkan operation failed" (some (vkResultToString r))

/-- All message and detail strings of an error chain, outermost first. -/
def Err.texts : Err → List String
  | .base m d => m :: d.toList
  | .chained m d c => m :: (d.toList ++ c.texts)

/-- Whether the character list `needle` is a prefix of `hay`. -/
def charsHavePrefix : List Char → List Char → Bool
  | [], _ => true
  | _ :: _, [] => false
  | a :: as, b :: bs => a == b && charsHavePrefix as bs

/-- Whether the character list `needle` occurs contiguously inside `hay`. -/
def charsHaveInfix (needle : List Char) : List Char → Bool
  | [] => charsHavePrefix needle []
  | hay@(_ :: rest) => charsHavePrefix needle hay || charsHaveInfix needle rest

/-- Whether some message or detail string in the error chain contains `s` as a
substring — the formal reading of "the error mentions `s`". -/
def Err.mentions (e : Err) (s : String) : Bool :=
  e.texts.any fun t => charsHaveInfix s.toList t.toList

/-! ## Swapchain data model (vulkan/context/swapchain.hpp) -/

inductive SharingMode where
  | eExclusive
  | eConcurrent
deriving DecidableEq, Repr

inductive PresentMode where
  | eImmediate
  | eMailbox
  | eFifo
  | eFifoRelaxed
deriving DecidableEq, Repr

/-- `vk::SurfaceFormatKHR`; the numeric fields carry the `vk::Format` /
`vk::ColorSpaceKHR` enum values (e.g. `eB8G8R8A8Srgb = 50`). -/
structure SurfaceFormat where
  format : Nat
  colorSpace : Nat
deriving DecidableEq, Repr

/-- `SwapchainContext::RuntimeState` (the Live variant).  Handles are modelled as
numeric identifiers. -/
structure RuntimeState where
  swapchain : Nat
  extent : Nat × Nat
  images : List Nat
  image_views : List Nat
  /-- "First acquision call after recreating the swapchain checks and resets this
  flag" — defaults to `true`, exactly as the omitted designated initializer. -/
  extent_changed : Bool := true
deriving DecidableEq, Repr

/-- `std::variant<std::monostate, RuntimeState, InvalidatedState>`. -/
inductive SwapchainState where
  | empty
  | live (rs : RuntimeState)
  | invalidated (old_swapchain : Nat)
deriving DecidableEq, Repr

/-- `SwapchainContext`: the four configuration fields fixed at creation, plus the
state variant. -/
structure SwapchainContext where
  sharing_mode : SharingMode
  queue_family_indices : List Nat
  surface_format : SurfaceFormat
  present_mode : PresentMode
  state : SwapchainState
deriving DecidableEq, Repr

/-- `SwapchainContext::ReadonlyWrapper` — the read-only view of the configuration
(`operator->`); the spec calls this the SurfaceLayout. -/
structure ReadonlyWrapper where
  sharing_mode : SharingMode
  queue_family_indices : List Nat
  surface_format : SurfaceFormat
  present_mode : PresentMode
deriving DecidableEq, Repr

/-- `SwapchainContext::operator->`. -/
def SwapchainContext.readonly (ctx : SwapchainContext) : ReadonlyWrapper :=
  { sharing_mode := ctx.sharing_mode
    queue_family_indices := ctx.queue_family_indices
    surface_format := ctx.surface_format
    present_mode := ctx.present_mode }

/-- `vk::SurfaceCapabilitiesKHR` (queried fields only). -/
structure SurfaceCapabilities where
  minImageCount : Nat
  maxImageCount : Nat
  currentExtent : Nat × Nat
  currentTransform : Nat
deriving DecidableEq, Repr

/-- `vk::SwapchainCreateInfoKHR` as filled in by `check_and_recreate_swapchain`
(compile-time-constant fields — flags, imageArrayLayers = 1, imageUsage,
compositeAlpha, clipped — are omitted). -/
structure SwapchainCreateInfo where
  surface : Nat
  minImageCount : Nat
  imageFormat : Nat
  imageColorSpace : Nat
  imageExtent : Nat × Nat
  imageSharingMode : SharingMode
  preTransform : Nat
  presentMode : PresentMode
  oldSwapchain : Option Nat
  queueFamilyIndices : List Nat
deriving DecidableEq, Repr

/-- One backend call made by the swapchain code, as the claims quantify over them. -/
inductive BackendEvent where
  | createSwapchain (info : SwapchainCreateInfo)
  | nativeAcquire (result : VkResult)
  | presentRequest (swapchain : Nat) (imageIndex : Nat)
deriving DecidableEq, Repr

/-- The driver-side responses consumed by one `check_and_recreate_swapchain` call:
the surface-capability query plus the fallible creation calls. -/
structure RecreateBackend where
  caps : SurfaceCapabilities
  surface : Nat
  createSwapchainKHR : SwapchainCreateInfo → Except VkResult Nat
  getImages : Nat → List Nat
  createImageView : Nat → Nat → Except VkResult Nat

/-- `std::expected<void, Error>`. -/
inductive VoidResult where
  | ok
  | error (e : Err)
deriving DecidableEq, Repr

/-- `SwapchainContext::Frame`. -/
structure Frame where
  extent : Nat × Nat
  extent_changed : Bool
  index : Nat
  image : Nat
  image_view : Nat
deriving DecidableEq, Repr

/-- The anonymous helper `create_swapchain_imageview` of swapchain.cpp: converts
the backend failure via `Error::from<vk::Result>` and forwards once. -/
def create_swapchain_imageview (b : RecreateBackend) (image : Nat) (format : Nat) :
    Except Err Nat :=
  match b.createImageView image format with
  | .error r => .error ((Err.fromResult r).forward "Create image view for swapchain image failed")
  | .ok v => .ok v

/-- The image-view creation loop of `check_and_recreate_swapchain`: short-circuits
at the first failing image (the caller adds its own `forward`). -/
def create_image_views (b : RecreateBackend) (format : Nat) : List Nat → Except Err (List Nat)
  | [] => .ok []
  | image :: rest =>
    match create_swapchain_imageview b image format with
    | .error e => .error e
    | .ok v =>
      match create_image_views b format rest with
      | .error e => .error e
      | .ok vs => .ok (v :: vs)

/-- The `vk::SwapchainCreateInfoKHR` filled by `check_and_recreate_swapchain`:
image count `glm::clamp(3, minImageCount, maxImageCount)`, extent and transform
from the capability query, all remaining fields from the context's stored
configuration, and the retained old handle (if any) as the recreation hint. -/
def make_swapchain_create_info (ctx : SwapchainContext) (b : RecreateBackend)
    (prev_swapchain : Option Nat) : SwapchainCreateInfo :=
  { surface := b.surface
    minImageCount := min (max 3 b.caps.minImageCount) b.caps.maxImageCount
    imageFormat := ctx.surface_format.format
    imageColorSpace := ctx.surface_format.colorSpace
    imageExtent := b.caps.currentExtent
    imageSharingMode := ctx.sharing_mode
    preTransform := b.caps.currentTransform
    presentMode := ctx.present_mode
    oldSwapchain := prev_swapchain
    queueFamilyIndices := ctx.queue_family_indices }

/-- The recreation path of `check_and_recreate_swapchain` (taken when the state
is not Live): create the swapchain, query its images, build the per-image views,
and install the fresh `RuntimeState`.  On failure the context is returned
unchanged, as the C++ early returns leave `state` untouched. -/
def recreate_fresh (ctx : SwapchainContext) (b : RecreateBackend) (prev_swapchain : Option Nat) :
    VoidResult × SwapchainContext × List BackendEvent :=
  match b.createSwapchainKHR (make_swapchain_create_info ctx b prev_swapchain) with
  | .error r =>
    (.error ((Err.fromResult r).forward "Create swapchain failed"), ctx,
     [.createSwapchain (make_swapchain_create_info ctx b prev_swapchain)])
  | .ok swapchain =>
    match create_image_views b ctx.surface_format.format (b.getImages swapchain) with
    | .error e =>
      (.error (e.forward "Create image view for swapchain image failed"), ctx,
       [.createSwapchain (make_swapchain_create_info ctx b prev_swapchain)])
    | .ok views =>
      (.ok,
       { ctx with
         state := .live
           { swapchain := swapchain
             extent := b.caps.currentExtent
             images := b.getImages swapchain
             image_views := views } },
       [.createSwapchain (make_swapchain_create_info ctx b prev_swapchain)])

/-- `SwapchainContext::check_and_recreate_swapchain`: no-op in Live state;
otherwise runs the recreation path, passing — if Invalidated — the retained old
handle (`util::get_variant<InvalidatedState>(state) … .value_or(nullptr)`) as
the `oldSwapchain` recreation hint. -/
def check_and_recreate_swapchain (ctx : SwapchainContext) (b : RecreateBackend) :
    VoidResult × SwapchainContext × List BackendEvent :=
  match ctx.state with
  | .live _ => (.ok, ctx, [])
  | .empty => recreate_fresh ctx b none
  | .invalidated old => recreate_fresh ctx b (some old)

/-- One iteration's backend responses for the `acquire_next` loop: what
`check_and_recreate_swapchain` would consume, plus the `(result, index)` pair
returned by `vkAcquireNextImageKHR`. -/
structure AcquireStep where
  backend : RecreateBackend
  acquireResult : VkResult
  acquireIndex : Nat

/-- Outcome of `acquire_next`: a returned frame, a returned error, or the C++
loop still spinning past the modelled backend responses. -/
inductive AcquireResult where
  | frame (f : Frame)
  | error (e : Err)
  | fuelOut
deriving DecidableEq, Repr

/-- Models `std::get<RuntimeState>` reached with a non-Live variant (which would
terminate the C++ process); proven unreachable after a successful
`check_and_recreate_swapchain` by `recreate_ok_live`. -/
def variantAccessError : Err := .base "bad variant access" none

/-- `SwapchainContext::acquire_next`: the `while (true)` loop, one list element
per iteration.  Success returns the frame, reading and resetting
`extent_changed` (`std::exchange`); out-of-date/suboptimal moves to
`Invalidated` (keeping the stale handle) and retries; anything else is returned
as `Error::from(result)`. -/
def acquire_next :
    SwapchainContext → List AcquireStep → AcquireResult × SwapchainContext × List BackendEvent
  | ctx, [] => (.fuelOut, ctx, [])
  | ctx, step :: rest =>
    match check_and_recreate_swapchain ctx step.backend with
    | (.error e, ctx2, log) =>
      (.error (e.forward "Recreate swapchain failed"), ctx2, log)
    | (.ok, ctx2, log) =>
      match ctx2.state with
      | .live rs =>
        let log2 := log ++ [BackendEvent.nativeAcquire step.acquireResult]
        match step.acquireResult with
        | .eSuccess =>
          (.frame
             { extent := rs.extent
               extent_changed := rs.extent_changed
               index := step.acquireIndex
               image := rs.images.getD step.acquireIndex 0
               image_view := rs.image_views.getD step.acquireIndex 0 },
           { ctx2 with state := .live { rs with extent_changed := false } }, log2)
        | .eErrorOutOfDateKHR | .eSuboptimalKHR =>
          let next := acquire_next { ctx2 with state := .invalidated rs.swapchain } rest
          (next.1, next.2.1, log2 ++ next.2.2)
        | r => (.error (Err.fromResult r), ctx2, log2)
      | _ => (.error variantAccessError, ctx2, log)

/-- `SwapchainContext::present`: requires Live state; submits the presentation
request and classifies the backend's answer — success keeps the state, a
soft-failure moves to `Invalidated` (keeping the handle) without an error,
anything else is returned as `Error::from(result)`. -/
def present (ctx : SwapchainContext) (frame : Frame) (present_result : VkResult) :
    VoidResult × SwapchainContext × List BackendEvent :=
  match ctx.state with
  | .live rs =>
    let log := [BackendEvent.presentRequest rs.swapchain frame.index]
    match present_result with
    | .eSuccess => (.ok, ctx, log)
    | .eErrorOutOfDateKHR | .eSuboptimalKHR =>
      (.ok, { ctx with state := .invalidated rs.swapchain }, log)
    | r => (.error (Err.fromResult r), ctx, log)
  | _ => (.error (Err.base "Present failed" (some "Swapchain is not in a valid state")), ctx, [])

/-! ## SwapchainContext creation (swapchain.cpp) -/

/-- The anonymous helper `select_surface_format`: first preferred format
(B8G8R8A8Srgb then R8G8B8A8Srgb, both SrgbNonlinear) available, else the first
available format, else none. -/
def select_surface_format (available_formats : List SurfaceFormat) : Option SurfaceFormat :=
  let preferred_formats : List SurfaceFormat := [⟨50, 0⟩, ⟨43, 0⟩]
  match preferred_formats.find? (fun p => available_formats.contains p) with
  | some f => some f
  | none => available_formats.head?

/-- The anonymous helper `select_present_mode`: Mailbox, else FifoRelaxed, else Fifo. -/
def select_present_mode (available_present_modes : List PresentMode) : PresentMode :=
  if available_present_modes.contains PresentMode.eMailbox then .eMailbox
  else if available_present_modes.contains PresentMode.eFifoRelaxed then .eFifoRelaxed
  else .eFifo

/-- The queue-family data `SwapchainContext::create` reads from the `DeviceContext`. -/
structure DeviceCtxQueues where
  graphics_family : Nat
  present_family : Nat
deriving DecidableEq, Repr

/-- `SwapchainContext::create`: selects the surface format and present mode,
derives the sharing mode and queue-family-index list, and starts in the
`monostate` (Empty) state. -/
def SwapchainContext.create (available_formats : List SurfaceFormat)
    (available_present_modes : List PresentMode) (dev : DeviceCtxQueues) :
    Except Err SwapchainContext :=
  match select_surface_format available_formats with
  | none => .error (Err.base "Select surface format failed" none)
  | some surface_format =>
    let present_mode := select_present_mode available_present_modes
    if dev.graphics_family = dev.present_family then
      .ok
        { sharing_mode := .eExclusive
          queue_family_indices := [dev.graphics_family]
          surface_format := surface_format
          present_mode := present_mode
          state := .empty }
    else
      .ok
        { sharing_mode := .eConcurrent
          queue_family_indices := [dev.graphics_family, dev.present_family]
          surface_format := surface_format
          present_mode := present_mode
          state := .empty }

/-! ## Physical-device selection (src/vulkan/context/src/impl/device.cpp) -/

inductive PhysicalDeviceType where
  | eOther
  | eIntegratedGpu
  | eDiscreteGpu
  | eVirtualGpu
  | eCpu
deriving DecidableEq, Repr

/-- One `vk::QueueFamilyProperties` entry, restricted to the capability bits the
code tests, plus the per-family answer of `getSurfaceSupportKHR` against the one
live surface. -/
structure QueueFamily where
  graphics : Bool
  compute : Bool
  presentSupport : Bool
deriving DecidableEq, Repr

/-- The Vulkan 1.0 feature flags required by `required_vulkan10_features`.  The
source compares the whole `vk::PhysicalDeviceFeatures` struct field-by-field
(`check_vulkan10_feature` bit-casts to a `vk::Bool32` array); every field it does
not require makes the per-field implication vacuous, so only the four required
flags are modelled. -/
structure Features10 where
  robustBufferAccess : Bool
  samplerAnisotropy : Bool
  textureCompressionBC : Bool
  pipelineStatisticsQuery : Bool
deriving DecidableEq, Repr

/-- A `DeviceCandidate`: the physical-device snapshot the selector queries.
`deviceLocalMemoryBytes` is part of the candidate's properties (heap sizes) but —
as proved below — never read by `score_phy_device`. -/
structure PhyDevice where
  deviceName : String
  deviceType : PhysicalDeviceType
  apiVersion : Nat
  maxImageDimension2D : Nat
  deviceLocalMemoryBytes : Nat
  availableExtensions : List String
  features10 : Features10
  shaderDrawParameters : Bool
  dynamicRendering : Bool
  synchronization2 : Bool
  queueFamilies : List QueueFamily
deriving DecidableEq, Repr

/-- `required_vulkan10_features`. -/
def required_vulkan10_features : Features10 :=
  { robustBufferAccess := true
    samplerAnisotropy := true
    textureCompressionBC := true
    pipelineStatisticsQuery := true }

/-- `mandatory_device_extensions`. -/
def mandatory_device_extensions : List String :=
  ["VK_KHR_swapchain", "VK_KHR_synchronization2"]

/-- `api_version` (impl/common.hpp): `vk::ApiVersion14` = (1 << 22) ||| (4 << 12). -/
def api_version : Nat := 4210688

/-- `check_vulkan10_feature`: per-flag implication required → available. -/
def check_vulkan10_feature (required available : Features10) : Bool :=
  (!required.robustBufferAccess || available.robustBufferAccess) &&
  (!required.samplerAnisotropy || available.samplerAnisotropy) &&
  (!required.textureCompressionBC || available.textureCompressionBC) &&
  (!required.pipelineStatisticsQuery || available.pipelineStatisticsQuery)

/-- `check_device`: Vulkan 1.0 required features, plus `shaderDrawParameters`
(1.1) and `dynamicRendering && synchronization2` (1.3). -/
def check_device (d : PhyDevice) : Bool :=
  check_vulkan10_feature required_vulkan10_features d.features10 &&
  d.shaderDrawParameters &&
  (d.dynamicRendering && d.synchronization2)

/-- The `extension_available` predicate of `pick_physical_device`: the set
difference (required minus available) is empty. -/
def extension_available (d : PhyDevice) : Bool :=
  mandatory_device_extensions.all fun e => d.availableExtensions.contains e

/-- The `api_version_supported` predicate of `pick_physical_device`. -/
def api_version_supported (d : PhyDevice) : Bool :=
  api_version ≤ d.apiVersion

/-- `score_phy_device`: 1000 for a discrete GPU plus `maxImageDimension2D / 512`. -/
def score_phy_device (d : PhyDevice) : Nat :=
  (if d.deviceType = PhysicalDeviceType.eDiscreteGpu then 1000 else 0) +
    d.maxImageDimension2D / 512

/-- `std::ranges::max(r, std::less(), proj)` on a list: the leftmost element of
maximal projection (`none` on the empty list, on which the C++ call is never
made). -/
def ranges_max {α : Type} (proj : α → Nat) : List α → Option α
  | [] => none
  | x :: xs => some (xs.foldl (fun best d => if proj best < proj d then d else best) x)

/-- `pick_physical_device`: filter by API version, then extensions, then
features; fail with the fixed error if nothing is left, otherwise take the
maximum by `score_phy_device`.  The enumerated device list is the input. -/
def pick_physical_device (all_devices : List PhyDevice) : Except Err PhyDevice :=
  let available_devices :=
    ((all_devices.filter api_version_supported).filter extension_available).filter check_device
  match ranges_max score_phy_device available_devices with
  | none => .error (Err.base "No suitable physical device found" none)
  | some d => .ok d

/-! ## Queue-family resolution (impl/device.cpp `create_logical_device`,
identical to `test_device_queue_families` in src/vulkan/context/src/device.cpp) -/

inductive QueueFlagBit where
  | eGraphics
  | eCompute
deriving DecidableEq, Repr

/-- Whether a family's `queueFlags` contain the required flag. -/
def QueueFamily.hasFlag (q : QueueFamily) : QueueFlagBit → Bool
  | .eGraphics => q.graphics
  | .eCompute => q.compute

/-- The all-false queue family, used as the (statically unreachable) `getD`
default when indexing with an index known to be in range. -/
def qfNone : QueueFamily := ⟨false, false, false⟩

/-- `find_queue_family_index`: index of the first family whose flags contain the
required flags. -/
def find_queue_family_index (d : PhyDevice) (required_flags : QueueFlagBit) : Option Nat :=
  d.queueFamilies.findIdx? fun q => q.hasFlag required_flags

/-- The queue-detection part of `create_logical_device` (impl/device.cpp:168-194):
first graphics family, first compute family; the present role goes to the
graphics family if it can present to the surface, otherwise to the first family
(in index order) that can, with an error when a role has no supporting family.
(The C++ detects the empty fallback search by comparing the found iterator's
value with the family count; the iota end iterator holds exactly that bound.) -/
def test_device_queue_families (d : PhyDevice) : Except Err (Nat × Nat × Nat) :=
  match find_queue_family_index d .eGraphics, find_queue_family_index d .eCompute with
  | none, _ => .error (Err.base "No queue family supports graphics operations" none)
  | some _, none => .error (Err.base "No queue family supports compute operations" none)
  | some graphics_index, some compute_index =>
    if (d.queueFamilies.getD graphics_index qfNone).presentSupport then
      .ok (graphics_index, compute_index, graphics_index)
    else
      match d.queueFamilies.findIdx? (fun q => q.presentSupport) with
      | none => .error (Err.base "No queue family supports present operations" none)
      | some present_index => .ok (graphics_index, compute_index, present_index)

/-! ## The frame-resource ring (vulkan/util/cycle.hpp)

`Cycle<T>` holds a nonempty vector of owned items; `back()` is the current
frame's slot, `front()` the previous frame's.  The nonemptiness of the item
vector (ring depth N ≥ 1) is carried as a structure invariant, matching the
claims' domain; on an empty vector the C++ `current()`/`prev()` dereference
invalid iterators. -/

structure Cycle (α : Type) where
  items : List α
  nonempty : items ≠ []

/-- `Cycle::current()`: the back item. -/
def Cycle.current {α : Type} (c : Cycle α) : α :=
  c.items.getLast c.nonempty

/-- `Cycle::prev()`: the front item. -/
def Cycle.prev {α : Type} (c : Cycle α) : α :=
  c.items.head c.nonempty

/-- `Cycle::cycle()`: pop the back item and reinsert it at the front. -/
def Cycle.cycle {α : Type} (c : Cycle α) : Cycle α :=
  ⟨c.items.getLast c.nonempty :: c.items.dropLast, List.cons_ne_nil _ _⟩

/-! ## Concrete fixtures (used by witnesses and counterexamples) -/

/-- A well-behaved driver: swapchain creation succeeds with handle 7, three
images, image views succeed. -/
def trivialBackend : RecreateBackend :=
  { caps :=
      { minImageCount := 2
        maxImageCount := 8
        currentExtent := (800, 600)
        currentTransform := 1 }
    surface := 1
    createSwapchainKHR := fun _ => .ok 7
    getImages := fun _ => [10, 11, 12]
    createImageView := fun image _ => .ok (image + 100) }

/-- A swapchain context with a fixed configuration and the given state. -/
def sampleCtx (st : SwapchainState) : SwapchainContext :=
  { sharing_mode := .eExclusive
    queue_family_indices := [0]
    surface_format := ⟨50, 0⟩
    present_mode := .eFifo
    state := st }

/-- A Live runtime state whose `extent_changed` flag has already been consumed. -/
def sampleRuntime : RuntimeState :=
  { swapchain := 5
    extent := (800, 600)
    images := [10, 11, 12]
    image_views := [110, 111, 112]
    extent_changed := false }

/-- A sample frame (as would have been produced by a successful acquire). -/
def sampleFrame : Frame :=
  { extent := (800, 600), extent_changed := false, index := 1, image := 11, image_view := 111 }

/-! ## Helper lemmas about the swapchain state machine -/

/-- In Live state, `check_and_recreate_swapchain` does nothing. -/
theorem recreate_live_id {ctx : SwapchainContext} {rs : RuntimeState} (b : RecreateBackend)
    (h : ctx.state = .live rs) :
    check_and_recreate_swapchain ctx b = (.ok, ctx, []) := by
  unfold check_and_recreate_swapchain
  rw [h]

/-- A successful `recreate_fresh` yields exactly: the Live state built from the
newly created swapchain and the capability extent (fresh `extent_changed = true`),
and a log holding the one creation call. -/
theorem recreate_fresh_ok {ctx : SwapchainContext} {b : RecreateBackend}
    {prev : Option Nat} (h : (recreate_fresh ctx b prev).1 = .ok) :
    ∃ swapchain views,
      b.createSwapchainKHR (make_swapchain_create_info ctx b prev) = .ok swapchain ∧
      create_image_views b ctx.surface_format.format (b.getImages swapchain) = .ok views ∧
      recreate_fresh ctx b prev =
        (.ok,
         { ctx with
           state := .live
             { swapchain := swapchain
               extent := b.caps.currentExtent
               images := b.getImages swapchain
               image_views := views
               extent_changed := true } },
         [.createSwapchain (make_swapchain_create_info ctx b prev)]) := by
  unfold recreate_fresh at h ⊢
  split at h
  next r hc => simp at h
  next swapchain hc =>
    split at h
    next e hv => simp at h
    next views hv => exact ⟨swapchain, views, hc, hv, rfl⟩

/-- `recreate_fresh` leaves the configuration (the SurfaceLayout) untouched. -/
theorem recreate_fresh_readonly (ctx : SwapchainContext) (b : RecreateBackend)
    (prev : Option Nat) :
    (recreate_fresh ctx b prev).2.1.readonly = ctx.readonly := by
  unfold recreate_fresh
  split
  next r hc => rfl
  next swapchain hc =>
    split
    next e hv => rfl
    next views hv => rfl

/-- The only backend call `recreate_fresh` logs is the one swapchain creation. -/
theorem recreate_fresh_events (ctx : SwapchainContext) (b : RecreateBackend)
    (prev : Option Nat) :
    (recreate_fresh ctx b prev).2.2 =
      [.createSwapchain (make_swapchain_create_info ctx b prev)] := by
  unfold recreate_fresh
  split
  next r hc => rfl
  next swapchain hc =>
    split
    next e hv => rfl
    next views hv => rfl

/-- A successful `check_and_recreate_swapchain` always leaves a Live state. -/
theorem recreate_ok_live {ctx : SwapchainContext} {b : RecreateBackend}
    (h : (check_and_recreate_swapchain ctx b).1 = .ok) :
    ∃ rs, (check_and_recreate_swapchain ctx b).2.1.state = .live rs := by
  unfold check_and_recreate_swapchain at h ⊢
  rcases hst : ctx.state with _ | rs | old
  · rw [hst] at h
    obtain ⟨sc, views, -, -, heq⟩ :=
      recreate_fresh_ok (show (recreate_fresh ctx b none).1 = .ok from h)
    show ∃ rs, (recreate_fresh ctx b none).2.1.state = .live rs
    rw [heq]
    exact ⟨_, rfl⟩
  · exact ⟨rs, hst⟩
  · rw [hst] at h
    obtain ⟨sc, views, -, -, heq⟩ :=
      recreate_fresh_ok (show (recreate_fresh ctx b (some old)).1 = .ok from h)
    show ∃ rs, (recreate_fresh ctx b (some old)).2.1.state = .live rs
    rw [heq]
    exact ⟨_, rfl⟩

/-- `check_and_recreate_swapchain` leaves the configuration untouched. -/
theorem recreate_readonly (ctx : SwapchainContext) (b : RecreateBackend) :
    (check_and_recreate_swapchain ctx b).2.1.readonly = ctx.readonly := by
  unfold check_and_recreate_swapchain
  rcases hst : ctx.state with _ | rs | old
  · exact recreate_fresh_readonly ctx b none
  · rfl
  · exact recreate_fresh_readonly ctx b (some old)

/-- Unfolding `acquire_next` on a Live context whose native acquire succeeds:
the frame reads the runtime state (consuming `extent_changed` via
`std::exchange`), and the state keeps the same swapchain with the flag cleared. -/
theorem acquire_live_success {ctx : SwapchainContext} {rs : RuntimeState}
    (h : ctx.state = .live rs) {step : AcquireStep} (hr : step.acquireResult = .eSuccess)
    (rest : List AcquireStep) :
    acquire_next ctx (step :: rest) =
      (.frame
         { extent := rs.extent
           extent_changed := rs.extent_changed
           index := step.acquireIndex
           image := rs.images.getD step.acquireIndex 0
           image_view := rs.image_views.getD step.acquireIndex 0 },
       { ctx with state := .live { rs with extent_changed := false } },
       [.nativeAcquire .eSuccess]) := by
  unfold acquire_next
  rw [recreate_live_id step.backend h]
  dsimp only
  rw [h, hr]
  simp

/-- Unfolding `acquire_next` on a Live context whose native acquire soft-fails:
the state becomes Invalidated retaining the stale handle, and the whole acquire
is retried on the remaining backend responses without returning to the caller. -/
theorem acquire_live_soft {ctx : SwapchainContext} {rs : RuntimeState}
    (h : ctx.state = .live rs) {step : AcquireStep}
    (hr : step.acquireResult = .eErrorOutOfDateKHR ∨ step.acquireResult = .eSuboptimalKHR)
    (rest : List AcquireStep) :
    acquire_next ctx (step :: rest) =
      ((acquire_next { ctx with state := .invalidated rs.swapchain } rest).1,
       (acquire_next { ctx with state := .invalidated rs.swapchain } rest).2.1,
       [BackendEvent.nativeAcquire step.acquireResult] ++
         (acquire_next { ctx with state := .invalidated rs.swapchain } rest).2.2) := by
  conv_lhs => rw [acquire_next.eq_def]
  dsimp only
  rw [recreate_live_id step.backend h]
  dsimp only
  rw [h]
  rcases hr with hr | hr <;> rw [hr] <;> simp

/-- Unfolding `acquire_next` on a Live context whose native acquire returns a
hard failure (neither success nor a soft failure): the result is returned to the
caller as `Error::from(result)` and the state is left as it was. -/
theorem acquire_live_hard {ctx : SwapchainContext} {rs : RuntimeState}
    (h : ctx.state = .live rs) {step : AcquireStep}
    (hs : step.acquireResult ≠ .eSuccess)
    (ho : step.acquireResult ≠ .eErrorOutOfDateKHR)
    (hu : step.acquireResult ≠ .eSuboptimalKHR)
    (rest : List AcquireStep) :
    acquire_next ctx (step :: rest) =
      (.error (Err.fromResult step.acquireResult), ctx,
       [.nativeAcquire step.acquireResult]) := by
  unfold acquire_next
  rw [recreate_live_id step.backend h]
  dsimp only
  rw [h]
  rcases hr : step.acquireResult with _ | _ | _ | _ | _ | _ | _ <;>
    first
    | exact absurd hr hs
    | exact absurd hr ho
    | exact absurd hr hu
    | simp

/-- Recreating from the Invalidated state: on success the context moves to a
fresh Live state (extent from the capability query, `extent_changed = true`) and
the one creation call passes the retained old handle as the hint. -/
theorem recreate_invalidated_shape {ctx : SwapchainContext} {b : RecreateBackend} {old : Nat}
    (hst : ctx.state = .invalidated old)
    (hok : (check_and_recreate_swapchain ctx b).1 = .ok) :
    ∃ sc views,
      check_and_recreate_swapchain ctx b =
        (.ok,
         { ctx with
           state := .live
             { swapchain := sc
               extent := b.caps.currentExtent
               images := b.getImages sc
               image_views := views
               extent_changed := true } },
         [.createSwapchain (make_swapchain_create_info ctx b (some old))]) := by
  unfold check_and_recreate_swapchain at hok ⊢
  rw [hst] at hok ⊢
  obtain ⟨sc, views, -, -, heq⟩ := recreate_fresh_ok hok
  exact ⟨sc, views, heq⟩

/-- Recreating from the Empty state: as from Invalidated, but with no hint. -/
theorem recreate_empty_shape {ctx : SwapchainContext} {b : RecreateBackend}
    (hst : ctx.state = .empty)
    (hok : (check_and_recreate_swapchain ctx b).1 = .ok) :
    ∃ sc views,
      check_and_recreate_swapchain ctx b =
        (.ok,
         { ctx with
           state := .live
             { swapchain := sc
               extent := b.caps.currentExtent
               images := b.getImages sc
               image_views := views
               extent_changed := true } },
         [.createSwapchain (make_swapchain_create_info ctx b none)]) := by
  unfold check_and_recreate_swapchain at hok ⊢
  rw [hst] at hok ⊢
  obtain ⟨sc, views, -, -, heq⟩ := recreate_fresh_ok hok
  exact ⟨sc, views, heq⟩

/-- Whenever the recreation phase of an `acquire_next` iteration succeeds, that
iteration's log is exactly the recreation's calls followed by the one native
acquire, then whatever later iterations add. -/
theorem acquire_step_events {ctx : SwapchainContext} {step : AcquireStep}
    (rest : List AcquireStep)
    (hok : (check_and_recreate_swapchain ctx step.backend).1 = .ok) :
    ∃ tail,
      (acquire_next ctx (step :: rest)).2.2 =
        (check_and_recreate_swapchain ctx step.backend).2.2 ++
          [BackendEvent.nativeAcquire step.acquireResult] ++ tail := by
  obtain ⟨rs2, hlive⟩ := recreate_ok_live hok
  rcases hcheck : check_and_recreate_swapchain ctx step.backend with ⟨res, ctx2, log⟩
  rw [hcheck] at hok hlive
  simp only at hok hlive
  subst hok
  have unfolded :
      acquire_next ctx (step :: rest) =
        (match check_and_recreate_swapchain ctx step.backend with
         | (.error e, ctx2, log) =>
           (.error (e.forward "Recreate swapchain failed"), ctx2, log)
         | (.ok, ctx2, log) =>
           match ctx2.state with
           | .live rs =>
             match step.acquireResult with
             | .eSuccess =>
               (.frame
                  { extent := rs.extent
                    extent_changed := rs.extent_changed
                    index := step.acquireIndex
                    image := rs.images.getD step.acquireIndex 0
                    image_view := rs.image_views.getD step.acquireIndex 0 },
                { ctx2 with state := .live { rs with extent_changed := false } },
                log ++ [BackendEvent.nativeAcquire step.acquireResult])
             | .eErrorOutOfDateKHR | .eSuboptimalKHR =>
               ((acquire_next { ctx2 with state := .invalidated rs.swapchain } rest).1,
                (acquire_next { ctx2 with state := .invalidated rs.swapchain } rest).2.1,
                (log ++ [BackendEvent.nativeAcquire step.acquireResult]) ++
                  (acquire_next { ctx2 with state := .invalidated rs.swapchain } rest).2.2)
             | r => (.error (Err.fromResult r), ctx2, log ++ [BackendEvent.nativeAcquire step.acquireResult])
           | _ => (.error variantAccessError, ctx2, log)) := by
    conv_lhs => rw [acquire_next.eq_def]
  rw [unfolded, hcheck]
  dsimp only
  rw [hlive]
  rcases hr : step.acquireResult with _ | _ | _ | _ | _ | _ | _
  case eSuccess => exact ⟨[], by simp⟩
  case eNotReady => exact ⟨[], by simp⟩
  case eTimeout => exact ⟨[], by simp⟩
  case eErrorOutOfDateKHR =>
    exact ⟨(acquire_next { ctx2 with state := .invalidated rs2.swapchain } rest).2.2, by simp⟩
  case eSuboptimalKHR =>
    exact ⟨(acquire_next { ctx2 with state := .invalidated rs2.swapchain } rest).2.2, by simp⟩
  case eErrorDeviceLost => exact ⟨[], by simp⟩
  case eErrorSurfaceLostKHR => exact ⟨[], by simp⟩

/-- One-step unfolding of the `acquire_next` loop body. -/
theorem acquire_next_cons_eq (ctx : SwapchainContext) (step : AcquireStep)
    (rest : List AcquireStep) :
    acquire_next ctx (step :: rest) =
      (match check_and_recreate_swapchain ctx step.backend with
       | (.error e, ctx2, log) =>
         (.error (e.forward "Recreate swapchain failed"), ctx2, log)
       | (.ok, ctx2, log) =>
         match ctx2.state with
         | .live rs =>
           match step.acquireResult with
           | .eSuccess =>
             (.frame
                { extent := rs.extent
                  extent_changed := rs.extent_changed
                  index := step.acquireIndex
                  image := rs.images.getD step.acquireIndex 0
                  image_view := rs.image_views.getD step.acquireIndex 0 },
              { ctx2 with state := .live { rs with extent_changed := false } },
              log ++ [BackendEvent.nativeAcquire step.acquireResult])
           | .eErrorOutOfDateKHR | .eSuboptimalKHR =>
             ((acquire_next { ctx2 with state := .invalidated rs.swapchain } rest).1,
              (acquire_next { ctx2 with state := .invalidated rs.swapchain } rest).2.1,
              (log ++ [BackendEvent.nativeAcquire step.acquireResult]) ++
                (acquire_next { ctx2 with state := .invalidated rs.swapchain } rest).2.2)
           | r =>
             (.error (Err.fromResult r), ctx2,
              log ++ [BackendEvent.nativeAcquire step.acquireResult])
         | _ => (.error variantAccessError, ctx2, log)) := by
  conv_lhs => rw [acquire_next.eq_def]

/-- Shape of every error `acquire_next` can return: a forwarded recreation
failure, `Error::from` of a hard (non-success, non-soft) native-acquire result,
or the unreachable variant-access marker — never anything built from a
soft-failure result. -/
theorem acquire_error_shape :
    ∀ (steps : List AcquireStep) (ctx : SwapchainContext) (e : Err),
      (acquire_next ctx steps).1 = .error e →
      (∃ e0 : Err, e = e0.forward "Recreate swapchain failed") ∨
      (∃ r, (r = VkResult.eNotReady ∨ r = VkResult.eTimeout ∨ r = VkResult.eErrorDeviceLost ∨
             r = VkResult.eErrorSurfaceLostKHR) ∧ e = Err.fromResult r) ∨
      e = variantAccessError := by
  intro steps
  induction steps with
  | nil =>
    intro ctx e h
    simp [acquire_next] at h
  | cons step rest ih =>
    intro ctx e h
    rw [acquire_next_cons_eq] at h
    rcases hcheck : check_and_recreate_swapchain ctx step.backend with ⟨res, ctx2, log⟩
    rw [hcheck] at h
    rcases res with _ | e0
    · dsimp only at h
      rcases hst : ctx2.state with _ | rs2 | old
      · rw [hst] at h
        dsimp only at h
        injection h with h2
        exact Or.inr (Or.inr h2.symm)
      · rw [hst] at h
        dsimp only at h
        rcases hr : step.acquireResult with _ | _ | _ | _ | _ | _ | _ <;> rw [hr] at h <;>
          dsimp only at h
        case eSuccess => exact absurd h (by simp)
        case eNotReady =>
          injection h with h2
          exact Or.inr (Or.inl ⟨.eNotReady, by simp, h2.symm⟩)
        case eTimeout =>
          injection h with h2
          exact Or.inr (Or.inl ⟨.eTimeout, by simp, h2.symm⟩)
        case eErrorOutOfDateKHR => exact ih _ e h
        case eSuboptimalKHR => exact ih _ e h
        case eErrorDeviceLost =>
          injection h with h2
          exact Or.inr (Or.inl ⟨.eErrorDeviceLost, by simp, h2.symm⟩)
        case eErrorSurfaceLostKHR =>
          injection h with h2
          exact Or.inr (Or.inl ⟨.eErrorSurfaceLostKHR, by simp, h2.symm⟩)
      · rw [hst] at h
        dsimp only at h
        injection h with h2
        exact Or.inr (Or.inr h2.symm)
    · dsimp only at h
      injection h with h2
      exact Or.inl ⟨e0, h2.symm⟩

/-- The configuration-derived fields of a swapchain-creation call agree with the
given stored configuration (SurfaceLayout). -/
def UsesLayout (info : SwapchainCreateInfo) (ro : ReadonlyWrapper) : Prop :=
  info.imageFormat = ro.surface_format.format ∧
  info.imageColorSpace = ro.surface_format.colorSpace ∧
  info.imageSharingMode = ro.sharing_mode ∧
  info.presentMode = ro.present_mode ∧
  info.queueFamilyIndices = ro.queue_family_indices

/-- The create info built by the recreation path draws its format, color space,
sharing mode, present mode and queue-family list from the stored configuration. -/
theorem make_info_uses_layout (ctx : SwapchainContext) (b : RecreateBackend)
    (prev : Option Nat) :
    UsesLayout (make_swapchain_create_info ctx b prev) ctx.readonly :=
  ⟨rfl, rfl, rfl, rfl, rfl⟩

/-- Every event logged by `check_and_recreate_swapchain` is a creation call with
the info built by `make_swapchain_create_info`. -/
theorem recreate_events_cases {ctx : SwapchainContext} {b : RecreateBackend}
    {ev : BackendEvent} (hmem : ev ∈ (check_and_recreate_swapchain ctx b).2.2) :
    ∃ prev, ev = .createSwapchain (make_swapchain_create_info ctx b prev) := by
  unfold check_and_recreate_swapchain at hmem
  rcases hst : ctx.state with _ | rs | old <;> rw [hst] at hmem
  · rw [recreate_fresh_events ctx b none] at hmem
    simp at hmem
    exact ⟨none, hmem⟩
  · simp at hmem
  · rw [recreate_fresh_events ctx b (some old)] at hmem
    simp at hmem
    exact ⟨some old, hmem⟩

/-- `acquire_next` never changes the stored configuration, whatever the backend
does and however often the loop retries. -/
theorem acquire_readonly :
    ∀ (steps : List AcquireStep) (ctx : SwapchainContext),
      (acquire_next ctx steps).2.1.readonly = ctx.readonly := by
  intro steps
  induction steps with
  | nil => intro ctx; rfl
  | cons step rest ih =>
    intro ctx
    rw [acquire_next_cons_eq]
    have hro : (check_and_recreate_swapchain ctx step.backend).2.1.readonly = ctx.readonly :=
      recreate_readonly ctx step.backend
    rcases hcheck : check_and_recreate_swapchain ctx step.backend with ⟨res, ctx2, log⟩
    rw [hcheck] at hro
    simp only at hro
    rcases res with _ | e0
    · dsimp only
      rcases hst : ctx2.state with _ | rs2 | old <;> dsimp only
      · exact hro
      · rcases hr : step.acquireResult with _ | _ | _ | _ | _ | _ | _ <;> dsimp only <;>
          first
          | exact hro
          | exact (ih { ctx2 with state := .invalidated rs2.swapchain }).trans hro
      · exact hro
    · exact hro

/-- Every swapchain-creation call logged during `acquire_next` uses exactly the
stored configuration of the context the call was made on. -/
theorem acquire_events_layout :
    ∀ (steps : List AcquireStep) (ctx : SwapchainContext) (info : SwapchainCreateInfo),
      BackendEvent.createSwapchain info ∈ (acquire_next ctx steps).2.2 →
      UsesLayout info ctx.readonly := by
  intro steps
  induction steps with
  | nil => intro ctx info hmem; simp [acquire_next] at hmem
  | cons step rest ih =>
    intro ctx info hmem
    rw [acquire_next_cons_eq] at hmem
    have hro : (check_and_recreate_swapchain ctx step.backend).2.1.readonly = ctx.readonly :=
      recreate_readonly ctx step.backend
    rcases hcheck : check_and_recreate_swapchain ctx step.backend with ⟨res, ctx2, log⟩
    rw [hcheck] at hro hmem
    simp only at hro
    have hlog : ∀ hm : BackendEvent.createSwapchain info ∈ log, UsesLayout info ctx.readonly := by
      intro hm
      have hm2 : BackendEvent.createSwapchain info ∈ (check_and_recreate_swapchain ctx step.backend).2.2 := by
        rw [hcheck]; exact hm
      obtain ⟨prev, hev⟩ := recreate_events_cases hm2
      have : info = make_swapchain_create_info ctx step.backend prev := by
        injection hev
      rw [this]
      exact make_info_uses_layout ctx step.backend prev
    rcases res with _ | e0
    · dsimp only at hmem
      rcases hst : ctx2.state with _ | rs2 | old <;> rw [hst] at hmem <;> dsimp only at hmem
      · exact hlog hmem
      · rcases hr : step.acquireResult with _ | _ | _ | _ | _ | _ | _ <;> rw [hr] at hmem <;>
          dsimp only at hmem <;> rw [List.mem_append] at hmem
        case eSuccess =>
          rcases hmem with hm | hm
          · exact hlog hm
          · simp at hm
        case eNotReady =>
          rcases hmem with hm | hm
          · exact hlog hm
          · simp at hm
        case eTimeout =>
          rcases hmem with hm | hm
          · exact hlog hm
          · simp at hm
        case eErrorOutOfDateKHR =>
          rcases hmem with hm | hm
          · rw [List.mem_append] at hm
            rcases hm with hm2 | hm2
            · exact hlog hm2
            · simp at hm2
          · have h3 : UsesLayout info ctx2.readonly :=
              ih { ctx2 with state := .invalidated rs2.swapchain } info hm
            rw [hro] at h3
            exact h3
        case eSuboptimalKHR =>
          rcases hmem with hm | hm
          · rw [List.mem_append] at hm
            rcases hm with hm2 | hm2
            · exact hlog hm2
            · simp at hm2
          · have h3 : UsesLayout info ctx2.readonly :=
              ih { ctx2 with state := .invalidated rs2.swapchain } info hm
            rw [hro] at h3
            exact h3
        case eErrorDeviceLost =>
          rcases hmem with hm | hm
          · exact hlog hm
          · simp at hm
        case eErrorSurfaceLostKHR =>
          rcases hmem with hm | hm
          · exact hlog hm
          · simp at hm
      · exact hlog hmem
    · dsimp only at hmem
      exact hlog hmem

/-- `present` never changes the stored configuration. -/
theorem present_readonly (ctx : SwapchainContext) (frame : Frame) (r : VkResult) :
    (present ctx frame r).2.1.readonly = ctx.readonly := by
  unfold present
  rcases hst : ctx.state with _ | rs | old
  · rfl
  · rcases r with _ | _ | _ | _ | _ | _ | _ <;> rfl
  · rfl

/-! ## Claim theorems -/

/-- C1: a soft-failure (out-of-date or suboptimal) from the backend's native
acquire is never returned to the caller as an Error — every error `acquire_next`
returns has a different cause — and on a soft-failure the machine moves to
Invalidated retaining the stale swapchain handle as the recreation hint and
retries the whole acquire (result and final state are those of the retried
call), without returning control to the caller. -/
theorem c1_acquire_soft_failure_retried :
    (∀ (steps : List AcquireStep) (ctx : SwapchainContext) (e : Err),
       (acquire_next ctx steps).1 = .error e →
       e ≠ Err.fromResult .eErrorOutOfDateKHR ∧ e ≠ Err.fromResult .eSuboptimalKHR) ∧
    (∀ (ctx : SwapchainContext) (rs : RuntimeState) (step : AcquireStep)
       (rest : List AcquireStep),
       ctx.state = .live rs →
       (step.acquireResult = .eErrorOutOfDateKHR ∨ step.acquireResult = .eSuboptimalKHR) →
       (acquire_next ctx (step :: rest)).1 =
           (acquire_next { ctx with state := .invalidated rs.swapchain } rest).1 ∧
         (acquire_next ctx (step :: rest)).2.1 =
           (acquire_next { ctx with state := .invalidated rs.swapchain } rest).2.1) := by
  constructor
  · intro steps ctx e h
    rcases acquire_error_shape steps ctx e h with ⟨e0, he⟩ | ⟨r, hr, he⟩ | he
    · subst he
      constructor <;> simp [Err.forward, Err.fromResult]
    · subst he
      rcases hr with h1 | h1 | h1 | h1 <;> subst h1 <;> exact ⟨by decide, by decide⟩
    · subst he
      exact ⟨by decide, by decide⟩
  · intro ctx rs step rest hlive hsoft
    rw [acquire_live_soft hlive hsoft rest]
    exact ⟨rfl, rfl⟩

/-- Witness for C1: a concrete soft-failing acquire equals the retried call on
the Invalidated state, and a concrete device-lost error is not a soft-failure
error. -/
theorem c1_acquire_soft_failure_retried_witness :
    ((acquire_next (sampleCtx (.live sampleRuntime))
        [⟨trivialBackend, .eErrorOutOfDateKHR, 0⟩]).1 =
      (acquire_next
          { sampleCtx (.live sampleRuntime) with
            state := .invalidated sampleRuntime.swapchain } []).1) ∧
    (Err.fromResult .eErrorDeviceLost ≠ Err.fromResult .eErrorOutOfDateKHR ∧
     Err.fromResult .eErrorDeviceLost ≠ Err.fromResult .eSuboptimalKHR) :=
  ⟨(c1_acquire_soft_failure_retried.2 (sampleCtx (.live sampleRuntime)) sampleRuntime
      ⟨trivialBackend, .eErrorOutOfDateKHR, 0⟩ [] rfl (Or.inl rfl)).1,
   c1_acquire_soft_failure_retried.1
      [⟨trivialBackend, .eErrorDeviceLost, 0⟩] (sampleCtx (.live sampleRuntime))
      (Err.fromResult .eErrorDeviceLost) (by decide)⟩

/-- C2 counterexample: with the swapchain Live and the backend's native acquire
answering NotReady, `acquire_next` returns an Error to the caller (built by
`Error::from(vk::Result::eNotReady)`), contradicting "a not-ready result is
retried internally and never reported to the caller as an error". -/
theorem c2_not_ready_cex :
    (acquire_next (sampleCtx (.live sampleRuntime))
        [⟨trivialBackend, .eNotReady, 0⟩]).1 =
      .error (Err.base "Vulkan operation failed" (some "NotReady")) := by
  decide

/-- C2 (amended): a NotReady result from the backend's native acquire falls into
the `default:` branch of `acquire_next` and is returned to the caller as
`Error::from(eNotReady)`, with no retry; only out-of-date/suboptimal results are
retried. -/
theorem c2_not_ready_reported (ctx : SwapchainContext) (rs : RuntimeState)
    (step : AcquireStep) (rest : List AcquireStep)
    (hlive : ctx.state = .live rs) (hr : step.acquireResult = .eNotReady) :
    acquire_next ctx (step :: rest) =
      (.error (Err.fromResult .eNotReady), ctx, [.nativeAcquire .eNotReady]) := by
  have h := @acquire_live_hard ctx rs hlive step
    (by rw [hr]; decide) (by rw [hr]; decide) (by rw [hr]; decide) rest
  rw [hr] at h
  exact h

/-- Witness for C2's amended theorem at a concrete Live context. -/
theorem c2_not_ready_reported_witness :
    acquire_next (sampleCtx (.live sampleRuntime)) [⟨trivialBackend, .eNotReady, 3⟩] =
      (.error (Err.fromResult .eNotReady), sampleCtx (.live sampleRuntime),
       [.nativeAcquire .eNotReady]) :=
  c2_not_ready_reported (sampleCtx (.live sampleRuntime)) sampleRuntime
    ⟨trivialBackend, .eNotReady, 3⟩ [] rfl rfl

/-- C3: a soft-failure from the backend during `present` in Live state is not an
error — `present` returns success, moving to Invalidated while keeping the old
swapchain handle — and the next `acquire` whose recreation succeeds performs
exactly one recreation (one Invalidated-to-Live transition, hinted with the
retained handle) before attempting the native acquire: its log is exactly one
`createSwapchain` call immediately followed by the native acquire. -/
theorem c3_present_soft_failure_lazy_recreate
    (ctx : SwapchainContext) (rs : RuntimeState) (frame : Frame) (r : VkResult)
    (hlive : ctx.state = .live rs)
    (hsoft : r = .eErrorOutOfDateKHR ∨ r = .eSuboptimalKHR) :
    present ctx frame r =
      (.ok, { ctx with state := .invalidated rs.swapchain },
       [.presentRequest rs.swapchain frame.index]) ∧
    (∀ (step : AcquireStep) (rest : List AcquireStep),
       (check_and_recreate_swapchain { ctx with state := .invalidated rs.swapchain }
           step.backend).1 = .ok →
       (∃ rs2, (check_and_recreate_swapchain { ctx with state := .invalidated rs.swapchain }
           step.backend).2.1.state = .live rs2) ∧
       ∃ tail,
         (acquire_next { ctx with state := .invalidated rs.swapchain } (step :: rest)).2.2 =
           BackendEvent.createSwapchain
               (make_swapchain_create_info { ctx with state := .invalidated rs.swapchain }
                 step.backend (some rs.swapchain)) ::
             BackendEvent.nativeAcquire step.acquireResult :: tail) := by
  constructor
  · unfold present
    rw [hlive]
    rcases hsoft with h | h <;> rw [h]
  · intro step rest hok
    obtain ⟨sc, views, hshape⟩ :=
      @recreate_invalidated_shape { ctx with state := .invalidated rs.swapchain }
        step.backend rs.swapchain rfl hok
    refine ⟨⟨_, by rw [hshape]⟩, ?_⟩
    obtain ⟨tail, hev⟩ := acquire_step_events rest hok
    rw [hshape] at hev
    exact ⟨tail, by simpa using hev⟩

/-- Witness for C3: concrete soft-failing present, then a concrete acquire whose
log shows the single recreation (with the retained handle 5 as hint) followed by
the native acquire. -/
theorem c3_present_soft_failure_lazy_recreate_witness :
    (present (sampleCtx (.live sampleRuntime)) sampleFrame .eSuboptimalKHR =
      (.ok, { sampleCtx (.live sampleRuntime) with state := .invalidated sampleRuntime.swapchain },
       [.presentRequest sampleRuntime.swapchain sampleFrame.index])) ∧
    ((∃ rs2, (check_and_recreate_swapchain
         { sampleCtx (.live sampleRuntime) with state := .invalidated sampleRuntime.swapchain }
         trivialBackend).2.1.state = .live rs2) ∧
     ∃ tail,
       (acquire_next
           { sampleCtx (.live sampleRuntime) with state := .invalidated sampleRuntime.swapchain }
           [⟨trivialBackend, .eSuccess, 0⟩]).2.2 =
         BackendEvent.createSwapchain
             (make_swapchain_create_info
               { sampleCtx (.live sampleRuntime) with
                 state := .invalidated sampleRuntime.swapchain }
               trivialBackend (some sampleRuntime.swapchain)) ::
           BackendEvent.nativeAcquire VkResult.eSuccess :: tail) :=
  ⟨(c3_present_soft_failure_lazy_recreate (sampleCtx (.live sampleRuntime)) sampleRuntime
      sampleFrame .eSuboptimalKHR rfl (Or.inr rfl)).1,
   (c3_present_soft_failure_lazy_recreate (sampleCtx (.live sampleRuntime)) sampleRuntime
      sampleFrame .eSuboptimalKHR rfl (Or.inr rfl)).2
      ⟨trivialBackend, .eSuccess, 0⟩ [] (by decide)⟩

/-- C10: calling `present` when the state is not Live returns the fixed
"Present failed / Swapchain is not in a valid state" error, submits no
presentation request (empty log), and leaves the context — state variant and
contents — exactly unchanged. -/
theorem c10_present_not_live_no_effect (ctx : SwapchainContext) (frame : Frame) (r : VkResult)
    (hnl : ∀ rs, ctx.state ≠ .live rs) :
    present ctx frame r =
      (.error (Err.base "Present failed" (some "Swapchain is not in a valid state")), ctx, []) := by
  unfold present
  rcases hst : ctx.state with _ | rs | old
  · rfl
  · exact absurd hst (hnl rs)
  · rfl

/-- Witness for C10 at a concrete Invalidated context. -/
theorem c10_present_not_live_no_effect_witness :
    present (sampleCtx (.invalidated 5)) sampleFrame .eSuccess =
      (.error (Err.base "Present failed" (some "Swapchain is not in a valid state")),
       sampleCtx (.invalidated 5), []) :=
  c10_present_not_live_no_effect (sampleCtx (.invalidated 5)) sampleFrame .eSuccess
    (by intro rs h; exact SwapchainState.noConfusion h)

/-- C4: the extent-changed flag is edge-triggered.  The first successful acquire
after a recreation (state was Empty or Invalidated, so a fresh Live state was
built) returns `extent_changed = true` and leaves the Live state with the flag
cleared (`std::exchange`); any second consecutive successful acquire on that
Live state — no intervening soft-failure or recreation — returns
`extent_changed = false`. -/
theorem c4_extent_changed_edge_triggered
    (ctx : SwapchainContext) (step1 : AcquireStep) (f1 : Frame) (ctx1 : SwapchainContext)
    (log1 : List BackendEvent)
    (hst : ctx.state = .empty ∨ ∃ old, ctx.state = .invalidated old)
    (hr1 : step1.acquireResult = .eSuccess)
    (h1 : acquire_next ctx [step1] = (.frame f1, ctx1, log1)) :
    f1.extent_changed = true ∧
    (∃ rs1, ctx1.state = .live rs1 ∧ rs1.extent_changed = false) ∧
    ∀ (step2 : AcquireStep) (f2 : Frame) (ctx2 : SwapchainContext) (log2 : List BackendEvent),
      step2.acquireResult = .eSuccess →
      acquire_next ctx1 [step2] = (.frame f2, ctx2, log2) →
      f2.extent_changed = false := by
  have hok : (check_and_recreate_swapchain ctx step1.backend).1 = .ok := by
    rcases hres : check_and_recreate_swapchain ctx step1.backend with ⟨res, ctxr, logr⟩
    rcases res with _ | e0
    · rfl
    · rw [acquire_next_cons_eq, hres] at h1
      simp at h1
  have hfresh :
      ∃ sc views evs,
        check_and_recreate_swapchain ctx step1.backend =
          (.ok,
           { ctx with
             state := .live
               { swapchain := sc
                 extent := step1.backend.caps.currentExtent
                 images := step1.backend.getImages sc
                 image_views := views
                 extent_changed := true } },
           evs) := by
    rcases hst with he | ⟨old, hi⟩
    · obtain ⟨sc, views, hs⟩ := recreate_empty_shape he hok
      exact ⟨sc, views, _, hs⟩
    · obtain ⟨sc, views, hs⟩ := recreate_invalidated_shape hi hok
      exact ⟨sc, views, _, hs⟩
  obtain ⟨sc, views, evs, hshape⟩ := hfresh
  rw [acquire_next_cons_eq, hshape] at h1
  dsimp only at h1
  rw [hr1] at h1
  dsimp only at h1
  rw [Prod.mk.injEq, Prod.mk.injEq] at h1
  obtain ⟨hf, hc, -⟩ := h1
  injection hf with hf
  subst hf
  subst hc
  refine ⟨rfl, ⟨_, rfl, rfl⟩, ?_⟩
  intro step2 f2 ctx2 log2 hr2 h2
  rw [acquire_live_success rfl hr2 []] at h2
  rw [Prod.mk.injEq, Prod.mk.injEq] at h2
  obtain ⟨hf2, -, -⟩ := h2
  injection hf2 with hf2
  subst hf2
  rfl

/-- Witness for C4: a concrete acquire from the Empty state reports
`extent_changed = true`, and the follow-up acquire reports `false`. -/
theorem c4_extent_changed_edge_triggered_witness :
    ((acquire_next (sampleCtx .empty) [⟨trivialBackend, .eSuccess, 0⟩]).1 =
        .frame { extent := (800, 600), extent_changed := true, index := 0, image := 10,
                 image_view := 110 }) ∧
    ((acquire_next (acquire_next (sampleCtx .empty) [⟨trivialBackend, .eSuccess, 0⟩]).2.1
        [⟨trivialBackend, .eSuccess, 1⟩]).1 =
      .frame { extent := (800, 600), extent_changed := false, index := 1, image := 11,
               image_view := 111 }) ∧
    ({ extent := (800, 600), extent_changed := true, index := 0, image := 10,
       image_view := 110 } : Frame).extent_changed = true :=
  ⟨by decide, by decide,
   (c4_extent_changed_edge_triggered (sampleCtx .empty) ⟨trivialBackend, .eSuccess, 0⟩
      { extent := (800, 600), extent_changed := true, index := 0, image := 10,
        image_view := 110 }
      (acquire_next (sampleCtx .empty) [⟨trivialBackend, .eSuccess, 0⟩]).2.1
      (acquire_next (sampleCtx .empty) [⟨trivialBackend, .eSuccess, 0⟩]).2.2
      (Or.inl rfl) rfl (by decide)).1⟩

/-- C8: the stored configuration (surface format, color space, present mode,
sharing mode, queue-family indices — the SurfaceLayout) is fixed at creation
(the context starts Empty) and is never modified by `check_and_recreate_swapchain`,
`acquire_next` or `present`; every recreation builds its create info from exactly
these stored values (so across Live generations only extent/images can differ),
and `present` performs no swapchain creation at all. -/
theorem c8_surface_layout_invariant :
    (∀ (formats : List SurfaceFormat) (modes : List PresentMode) (dev : DeviceCtxQueues)
       (ctx0 : SwapchainContext),
       SwapchainContext.create formats modes dev = .ok ctx0 → ctx0.state = .empty) ∧
    (∀ (ctx : SwapchainContext) (b : RecreateBackend),
       (check_and_recreate_swapchain ctx b).2.1.readonly = ctx.readonly ∧
       ∀ info, BackendEvent.createSwapchain info ∈ (check_and_recreate_swapchain ctx b).2.2 →
         UsesLayout info ctx.readonly) ∧
    (∀ (steps : List AcquireStep) (ctx : SwapchainContext),
       (acquire_next ctx steps).2.1.readonly = ctx.readonly ∧
       ∀ info, BackendEvent.createSwapchain info ∈ (acquire_next ctx steps).2.2 →
         UsesLayout info ctx.readonly) ∧
    (∀ (ctx : SwapchainContext) (frame : Frame) (r : VkResult),
       (present ctx frame r).2.1.readonly = ctx.readonly ∧
       ∀ info, BackendEvent.createSwapchain info ∉ (present ctx frame r).2.2) := by
  refine ⟨?_, ?_, ?_, ?_⟩
  · intro formats modes dev ctx0 h
    unfold SwapchainContext.create at h
    rcases hsel : select_surface_format formats with _ | sf <;> rw [hsel] at h <;>
      dsimp only at h
    · simp at h
    · by_cases hq : dev.graphics_family = dev.present_family
      · rw [if_pos hq] at h
        injection h with h2
        rw [← h2]
      · rw [if_neg hq] at h
        injection h with h2
        rw [← h2]
  · intro ctx b
    refine ⟨recreate_readonly ctx b, ?_⟩
    intro info hmem
    obtain ⟨prev, hev⟩ := recreate_events_cases hmem
    injection hev with hev
    rw [hev]
    exact make_info_uses_layout ctx b prev
  · intro steps ctx
    exact ⟨acquire_readonly steps ctx, fun info hmem => acquire_events_layout steps ctx info hmem⟩
  · intro ctx frame r
    refine ⟨present_readonly ctx frame r, ?_⟩
    intro info
    unfold present
    rcases hst : ctx.state with _ | rs | old
    · simp
    · rcases r with _ | _ | _ | _ | _ | _ | _ <;> simp
    · simp

/-- Witness for C8: the concrete context built by `create` starts Empty, and a
concrete recreation's create info agrees with the stored configuration. -/
theorem c8_surface_layout_invariant_witness :
    (sampleCtx .empty).state = SwapchainState.empty ∧
    UsesLayout (make_swapchain_create_info (sampleCtx .empty) trivialBackend none)
      (sampleCtx .empty).readonly :=
  ⟨c8_surface_layout_invariant.1 [⟨50, 0⟩] [] ⟨0, 0⟩ (sampleCtx .empty) rfl,
   (c8_surface_layout_invariant.2.1 (sampleCtx .empty) trivialBackend).2
     (make_swapchain_create_info (sampleCtx .empty) trivialBackend none) (by decide)⟩

/-! ## Device-selection helper lemmas and fixtures -/

instance instDecEqExceptVRT {ε α : Type} [DecidableEq ε] [DecidableEq α] :
    DecidableEq (Except ε α) := fun x y =>
  match x, y with
  | .error a, .error b =>
    match decEq a b with
    | isTrue h => isTrue (h ▸ rfl)
    | isFalse h => isFalse fun hc => h (Except.error.inj hc)
  | .error _, .ok _ => isFalse fun hc => Except.noConfusion hc
  | .ok _, .error _ => isFalse fun hc => Except.noConfusion hc
  | .ok a, .ok b =>
    match decEq a b with
    | isTrue h => isTrue (h ▸ rfl)
    | isFalse h => isFalse fun hc => h (Except.ok.inj hc)

/-- Specification of `List.findIdx?` on a successful search: the index is in
range, the element there satisfies the predicate and is a member, and no earlier
index does (first match in index order). -/
theorem findIdx?_some_spec {α : Type} (p : α → Bool) (dflt : α) :
    ∀ (l : List α) (i : Nat), l.findIdx? p = some i →
      i < l.length ∧ p (l.getD i dflt) = true ∧ l.getD i dflt ∈ l ∧
        ∀ j, j < i → p (l.getD j dflt) = false := by
  intro l
  induction l with
  | nil => intro i h; simp [List.findIdx?] at h
  | cons a l ih =>
    intro i h
    have hcons : (a :: l).findIdx? p = if p a then some 0 else (l.findIdx? p).map (· + 1) := by
      simp [List.findIdx?_cons]
    rw [hcons] at h
    by_cases hp : p a = true
    · rw [if_pos hp] at h
      injection h with h
      subst h
      exact ⟨Nat.succ_pos _, hp, List.mem_cons_self a l, fun j hj => absurd hj (Nat.not_lt_zero j)⟩
    · rw [if_neg hp] at h
      rcases hm : l.findIdx? p with _ | j <;> rw [hm] at h
      · simp at h
      · rw [show (some j).map (· + 1) = some (j + 1) from rfl] at h
        injection h with h
        subst h
        obtain ⟨hlen, hsat, hmem, hfirst⟩ := ih j hm
        refine ⟨Nat.succ_lt_succ hlen, hsat, List.mem_cons_of_mem a hmem, ?_⟩
        intro k hk
        rcases k with _ | k
        · simpa using Bool.eq_false_iff.mpr hp
        · exact hfirst k (Nat.lt_of_succ_lt_succ hk)

/-- If some member satisfies the predicate, `List.findIdx?` finds an index. -/
theorem findIdx?_isSome_of_exists {α : Type} (p : α → Bool) :
    ∀ (l : List α), (∃ x ∈ l, p x = true) → ∃ i, l.findIdx? p = some i := by
  intro l hex
  rcases hm : l.findIdx? p with _ | i
  · rw [List.findIdx?_eq_none_iff] at hm
    obtain ⟨x, hx, hpx⟩ := hex
    rw [hm x hx] at hpx
    exact absurd hpx (by simp)
  · exact ⟨i, rfl⟩

/-- A candidate device satisfying all negotiated requirements, with one
all-capable queue family. -/
def suitableDevice (name : String) (ty : PhysicalDeviceType) (maxDim mem : Nat) : PhyDevice :=
  { deviceName := name
    deviceType := ty
    apiVersion := api_version
    maxImageDimension2D := maxDim
    deviceLocalMemoryBytes := mem
    availableExtensions := mandatory_device_extensions
    features10 := required_vulkan10_features
    shaderDrawParameters := true
    dynamicRendering := true
    synchronization2 := true
    queueFamilies := [⟨true, true, true⟩] }

/-- A candidate rejected by the feature check (`robustBufferAccess` missing). -/
def rejectedDevice (name : String) : PhyDevice :=
  { suitableDevice name .eDiscreteGpu 4096 0 with
    features10 := { required_vulkan10_features with robustBufferAccess := false } }

/-- C5 counterexample: both devices satisfy the feature request; the integrated
device has far less device-local memory (1 KiB vs 16 GiB) but a large
`maxImageDimension2D`, and the selector picks it over the discrete device — the
score's continuous term is `maxImageDimension2D / 512`, not memory size, and the
discrete type weight (1000) does not dominate it. -/
theorem c5_discrete_not_always_picked_cex :
    check_device (suitableDevice "Discrete" .eDiscreteGpu 16384 17179869184) = true ∧
    check_device (suitableDevice "Integrated" .eIntegratedGpu 1024000 1024) = true ∧
    pick_physical_device
        [suitableDevice "Discrete" .eDiscreteGpu 16384 17179869184,
         suitableDevice "Integrated" .eIntegratedGpu 1024000 1024] =
      .ok (suitableDevice "Integrated" .eIntegratedGpu 1024000 1024) := by
  refine ⟨by decide, by decide, by decide⟩

/-- C5 (amended): the score is a fixed 1000-point weight for discrete devices
plus `maxImageDimension2D / 512`; device-local memory size never enters it.  For
two accepted devices — one discrete, one not — the discrete one is scored higher
and picked (in either enumeration order) exactly under the gap condition
`i.maxImageDimension2D / 512 < 1000 + d.maxImageDimension2D / 512`. -/
theorem c5_score_type_weight_plus_maxdim
    (d i : PhyDevice)
    (hd : d.deviceType = .eDiscreteGpu) (hi : i.deviceType ≠ .eDiscreteGpu)
    (h1d : api_version_supported d = true) (h2d : extension_available d = true)
    (h3d : check_device d = true)
    (h1i : api_version_supported i = true) (h2i : extension_available i = true)
    (h3i : check_device i = true)
    (hgap : i.maxImageDimension2D / 512 < 1000 + d.maxImageDimension2D / 512) :
    score_phy_device i < score_phy_device d ∧
    pick_physical_device [d, i] = .ok d ∧
    pick_physical_device [i, d] = .ok d ∧
    ∀ m, score_phy_device { i with deviceLocalMemoryBytes := m } = score_phy_device i := by
  have hscore : score_phy_device i < score_phy_device d := by
    unfold score_phy_device
    rw [hd, if_pos rfl, if_neg hi]
    omega
  have hav1 : ((([d, i].filter api_version_supported).filter
      extension_available).filter check_device) = [d, i] := by
    simp [List.filter_cons, h1d, h2d, h3d, h1i, h2i, h3i]
  have hav2 : ((([i, d].filter api_version_supported).filter
      extension_available).filter check_device) = [i, d] := by
    simp [List.filter_cons, h1d, h2d, h3d, h1i, h2i, h3i]
  refine ⟨hscore, ?_, ?_, fun m => rfl⟩
  · unfold pick_physical_device
    rw [hav1]
    unfold ranges_max
    dsimp only [List.foldl]
    rw [if_neg (Nat.lt_asymm hscore)]
  · unfold pick_physical_device
    rw [hav2]
    unfold ranges_max
    dsimp only [List.foldl]
    rw [if_pos hscore]

/-- Witness for C5's amended theorem on two concrete accepted devices. -/
theorem c5_score_type_weight_plus_maxdim_witness :
    score_phy_device (suitableDevice "I" .eIntegratedGpu 4096 1099511627776) <
      score_phy_device (suitableDevice "D" .eDiscreteGpu 16384 0) ∧
    pick_physical_device
        [suitableDevice "D" .eDiscreteGpu 16384 0,
         suitableDevice "I" .eIntegratedGpu 4096 1099511627776] =
      .ok (suitableDevice "D" .eDiscreteGpu 16384 0) ∧
    pick_physical_device
        [suitableDevice "I" .eIntegratedGpu 4096 1099511627776,
         suitableDevice "D" .eDiscreteGpu 16384 0] =
      .ok (suitableDevice "D" .eDiscreteGpu 16384 0) ∧
    ∀ m, score_phy_device
        { suitableDevice "I" .eIntegratedGpu 4096 1099511627776 with
          deviceLocalMemoryBytes := m } =
      score_phy_device (suitableDevice "I" .eIntegratedGpu 4096 1099511627776) :=
  c5_score_type_weight_plus_maxdim
    (suitableDevice "D" .eDiscreteGpu 16384 0)
    (suitableDevice "I" .eIntegratedGpu 4096 1099511627776)
    rfl (by decide) (by decide) (by decide) (by decide) (by decide) (by decide) (by decide)
    (by decide)

/-- C6 counterexample: two named candidate devices both fail negotiation, yet
`pick_physical_device` fails with the fixed generic error
"No suitable physical device found" whose chain mentions neither device name —
not an aggregate error with per-device reasons. -/
theorem c6_generic_error_cex :
    pick_physical_device [rejectedDevice "Alpha", rejectedDevice "Beta"] =
      .error (Err.base "No suitable physical device found" none) ∧
    Err.mentions (Err.base "No suitable physical device found" none) "Alpha" = false ∧
    Err.mentions (Err.base "No suitable physical device found" none) "Beta" = false := by
  refine ⟨by decide, by decide, by decide⟩

/-- C6 (amended): when no enumerated device passes the API-version, extension
and feature filters, device selection fails with the single fixed error
"No suitable physical device found" — the same error value for every input, so
it carries no per-device name, type or rejection reason. -/
theorem c6_selection_failure_generic (devices : List PhyDevice)
    (hall : (((devices.filter api_version_supported).filter
        extension_available).filter check_device) = []) :
    pick_physical_device devices =
      .error (Err.base "No suitable physical device found" none) := by
  unfold pick_physical_device
  rw [hall]
  rfl

/-- Witness for C6's amended theorem on a concrete rejected device list. -/
theorem c6_selection_failure_generic_witness :
    pick_physical_device [rejectedDevice "Gamma"] =
      .error (Err.base "No suitable physical device found" none) :=
  c6_selection_failure_generic [rejectedDevice "Gamma"] (by decide)

/-- C7: for a device that passed negotiation, queue-role resolution succeeds
exactly when each of the three roles (graphics, compute, presentation) has some
supporting family; on success the graphics and compute roles get the first
family (in index order) with the corresponding flag, and the presentation role
gets the graphics family when it can present to the surface and otherwise the
first family (in index order) that can — all three indices valid and
supporting their roles. -/
theorem c7_queue_roles_resolution (d : PhyDevice) (hneg : check_device d = true) :
    ((∃ gcp, test_device_queue_families d = .ok gcp) ↔
       ((∃ q ∈ d.queueFamilies, q.graphics = true) ∧
        (∃ q ∈ d.queueFamilies, q.compute = true) ∧
        (∃ q ∈ d.queueFamilies, q.presentSupport = true))) ∧
    ∀ g c p, test_device_queue_families d = .ok (g, c, p) →
      (g < d.queueFamilies.length ∧ c < d.queueFamilies.length ∧
        p < d.queueFamilies.length) ∧
      ((d.queueFamilies.getD g qfNone).graphics = true ∧
        (d.queueFamilies.getD c qfNone).compute = true ∧
        (d.queueFamilies.getD p qfNone).presentSupport = true) ∧
      (find_queue_family_index d .eGraphics = some g ∧
        find_queue_family_index d .eCompute = some c) ∧
      ((d.queueFamilies.getD g qfNone).presentSupport = true → p = g) ∧
      ((d.queueFamilies.getD g qfNone).presentSupport = false →
        d.queueFamilies.findIdx? (fun q => q.presentSupport) = some p) := by
  constructor
  · constructor
    · rintro ⟨⟨g, c, p⟩, hok⟩
      unfold test_device_queue_families at hok
      rcases hg : find_queue_family_index d .eGraphics with _ | g0 <;> rw [hg] at hok
      · simp at hok
      rcases hc : find_queue_family_index d .eCompute with _ | c0 <;> rw [hc] at hok
      · simp at hok
      obtain ⟨-, hgsat, hgmem, -⟩ := findIdx?_some_spec _ qfNone _ _ hg
      obtain ⟨-, hcsat, hcmem, -⟩ := findIdx?_some_spec _ qfNone _ _ hc
      refine ⟨⟨_, hgmem, hgsat⟩, ⟨_, hcmem, hcsat⟩, ?_⟩
      dsimp only at hok
      by_cases hps : (d.queueFamilies.getD g0 qfNone).presentSupport = true
      · exact ⟨_, (findIdx?_some_spec _ qfNone _ _ hg).2.2.1, hps⟩
      · rw [if_neg (by simpa using hps)] at hok
        rcases hp : d.queueFamilies.findIdx? (fun q => q.presentSupport) with _ | p0 <;>
          rw [hp] at hok
        · simp at hok
        · obtain ⟨-, hpsat, hpmem, -⟩ := findIdx?_some_spec _ qfNone _ _ hp
          exact ⟨_, hpmem, hpsat⟩
    · rintro ⟨⟨qg, hqgmem, hqg⟩, ⟨qc, hqcmem, hqc⟩, ⟨qp, hqpmem, hqp⟩⟩
      obtain ⟨g, hg⟩ := findIdx?_isSome_of_exists _ _ ⟨qg, hqgmem, hqg⟩
      obtain ⟨c, hc⟩ := findIdx?_isSome_of_exists _ _ ⟨qc, hqcmem, hqc⟩
      unfold test_device_queue_families
      rw [show find_queue_family_index d .eGraphics = some g from hg,
          show find_queue_family_index d .eCompute = some c from hc]
      dsimp only
      by_cases hps : (d.queueFamilies.getD g qfNone).presentSupport = true
      · rw [if_pos hps]
        exact ⟨_, rfl⟩
      · rw [if_neg hps]
        obtain ⟨p, hp⟩ := findIdx?_isSome_of_exists
          (fun q => q.presentSupport) _ ⟨qp, hqpmem, hqp⟩
        rw [hp]
        exact ⟨_, rfl⟩
  · intro g c p hok
    unfold test_device_queue_families at hok
    rcases hg : find_queue_family_index d .eGraphics with _ | g0 <;> rw [hg] at hok
    · simp at hok
    rcases hc : find_queue_family_index d .eCompute with _ | c0 <;> rw [hc] at hok
    · simp at hok
    dsimp only at hok
    obtain ⟨hglen, hgsat, -, -⟩ := findIdx?_some_spec _ qfNone _ _ hg
    obtain ⟨hclen, hcsat, -, -⟩ := findIdx?_some_spec _ qfNone _ _ hc
    by_cases hps : (d.queueFamilies.getD g0 qfNone).presentSupport = true
    · rw [if_pos hps] at hok
      injection hok with hok
      obtain ⟨hg2, hc2, hp2⟩ : g0 = g ∧ c0 = c ∧ g0 = p := by
        refine ⟨congrArg Prod.fst hok, ?_, ?_⟩
        · have := congrArg Prod.snd hok
          exact congrArg Prod.fst this
        · have := congrArg Prod.snd hok
          exact congrArg Prod.snd this
      subst hg2
      subst hc2
      subst hp2
      refine ⟨⟨hglen, hclen, hglen⟩, ⟨hgsat, hcsat, hps⟩, ⟨rfl, rfl⟩, fun _ => rfl, ?_⟩
      intro hfalse
      rw [hfalse] at hps
      exact absurd hps (by simp)
    · rw [if_neg hps] at hok
      rcases hp : d.queueFamilies.findIdx? (fun q => q.presentSupport) with _ | p0 <;>
        rw [hp] at hok
      · simp at hok
      · injection hok with hok
        obtain ⟨hg2, hc2, hp2⟩ : g0 = g ∧ c0 = c ∧ p0 = p := by
          refine ⟨congrArg Prod.fst hok, ?_, ?_⟩
          · have := congrArg Prod.snd hok
            exact congrArg Prod.fst this
          · have := congrArg Prod.snd hok
            exact congrArg Prod.snd this
        subst hg2
        subst hc2
        subst hp2
        obtain ⟨hplen, hpsat, -, -⟩ := findIdx?_some_spec _ qfNone _ _ hp
        refine ⟨⟨hglen, hclen, hplen⟩, ⟨hgsat, hcsat, hpsat⟩, ⟨rfl, rfl⟩, ?_, fun _ => hp⟩
        intro htrue
        exact absurd htrue hps

/-- Witness for C7 on a concrete negotiation-passing device whose graphics
family cannot present, exercising the index-order fallback. -/
theorem c7_queue_roles_resolution_witness :
    (∃ gcp, test_device_queue_families
        { suitableDevice "W" .eDiscreteGpu 4096 0 with
          queueFamilies := [⟨true, true, false⟩, ⟨false, true, true⟩] } = .ok gcp) ↔
      ((∃ q ∈ ({ suitableDevice "W" .eDiscreteGpu 4096 0 with
            queueFamilies := [⟨true, true, false⟩, ⟨false, true, true⟩] }
              : PhyDevice).queueFamilies, q.graphics = true) ∧
       (∃ q ∈ ({ suitableDevice "W" .eDiscreteGpu 4096 0 with
            queueFamilies := [⟨true, true, false⟩, ⟨false, true, true⟩] }
              : PhyDevice).queueFamilies, q.compute = true) ∧
       (∃ q ∈ ({ suitableDevice "W" .eDiscreteGpu 4096 0 with
            queueFamilies := [⟨true, true, false⟩, ⟨false, true, true⟩] }
              : PhyDevice).queueFamilies, q.presentSupport = true)) :=
  (c7_queue_roles_resolution
    { suitableDevice "W" .eDiscreteGpu 4096 0 with
      queueFamilies := [⟨true, true, false⟩, ⟨false, true, true⟩] } (by decide)).1

/-! ## Cycle lemmas -/

/-- Two cycles with equal item lists are equal (the nonemptiness field is a
proposition). -/
theorem Cycle.eq_of_items_eq {α : Type} {c d : Cycle α} (h : c.items = d.items) : c = d := by
  cases c
  cases d
  cases h
  rfl

/-- `cycle()` is inverse to rotating the item list forward by one position. -/
theorem cycle_rotate_one {α : Type} (c : Cycle α) : (c.cycle).items.rotate 1 = c.items := by
  show (c.items.getLast c.nonempty :: c.items.dropLast).rotate 1 = c.items
  rw [List.rotate_cons_succ, List.rotate_zero]
  exact List.dropLast_append_getLast c.nonempty

/-- `cycle()` preserves the number of items. -/
theorem cycle_length {α : Type} (c : Cycle α) : (c.cycle).items.length = c.items.length := by
  show (c.items.getLast c.nonempty :: c.items.dropLast).length = c.items.length
  have hpos : 0 < c.items.length := List.length_pos.mpr c.nonempty
  simp [List.length_dropLast]
  omega

/-- Iterating `cycle()` k times rotates the item list back by k positions (and
keeps the length). -/
theorem cycle_iterate_items {α : Type} (c : Cycle α) :
    ∀ k, (Cycle.cycle^[k] c).items.rotate k = c.items ∧
      (Cycle.cycle^[k] c).items.length = c.items.length := by
  intro k
  induction k with
  | zero => simp
  | succ k ih =>
    rw [Function.iterate_succ_apply']
    constructor
    · have h1 : ((Cycle.cycle^[k] c).cycle).items.rotate 1 = (Cycle.cycle^[k] c).items :=
        cycle_rotate_one _
      calc ((Cycle.cycle^[k] c).cycle).items.rotate (k + 1)
          = (((Cycle.cycle^[k] c).cycle).items.rotate 1).rotate k := by
            rw [List.rotate_rotate, Nat.add_comm]
        _ = (Cycle.cycle^[k] c).items.rotate k := by rw [h1]
        _ = c.items := ih.1
    · rw [cycle_length]
      exact ih.2

/-- C9: for every ring of N ≥ 1 items, `prev()` right after `cycle()` is exactly
the item `current()` returned before that `cycle()` call; `cycle()` is a
rotation by one position (so the multiset of items is preserved); and N
consecutive `cycle()` calls restore the original assignment. -/
theorem c9_cycle_ring (α : Type) (c : Cycle α) :
    (c.cycle).prev = c.current ∧
    (c.cycle).items.rotate 1 = c.items ∧
    List.Perm (c.cycle).items c.items ∧
    Cycle.cycle^[c.items.length] c = c := by
  refine ⟨rfl, cycle_rotate_one c, ?_, ?_⟩
  · have h := List.rotate_perm (c.cycle).items 1
    rw [cycle_rotate_one c] at h
    exact h.symm
  · obtain ⟨hrot, hlen⟩ := cycle_iterate_items c c.items.length
    apply Cycle.eq_of_items_eq
    have hself : (Cycle.cycle^[c.items.length] c).items.rotate
        ((Cycle.cycle^[c.items.length] c).items.length) =
        (Cycle.cycle^[c.items.length] c).items := List.rotate_length _
    rw [hlen] at hself
    rw [← hself]
    exact hrot

end VulkanRT
